import Mathlib

/-
  Verification development for the Synthetic Data Generator app (src/app.py).

  The program is a single-page Streamlit application with two generation
  modes.  The external generation library (DeepEval Synthesizer) is treated
  as an opaque collaborator: its result is an input of the model, either a
  list of goldens or a raised exception, represented by
  `Except String (List Golden)`.

  Shallow-embedding conventions:
  * Python `Golden` records become the structure `Golden`; optional /
    possibly-absent attributes become `Option` fields (`none` models both an
    absent attribute and Python `None`, so `hasattr(g, f) and g.f` becomes a
    truthiness test on the option).
  * `os.path.join(temp_dir, name)` is modeled as the structured pair
    `FilePath2.mk temp_dir name`; the file system is an association list
    from paths to byte lists.
  * Streamlit display calls become elements of the `UIAction` list the run
    produces; `json.dumps` is not serialized to a string, the download
    button carries the json_data value itself (a list of key/value objects,
    preserving insertion order as Python dicts do).
  * A `try`/`except` boundary becomes a `match` on the `Except` value of its
    body; `Outcome.crashed` represents an uncaught propagating exception and
    is shown never to be produced by the two actions.
-/

/-- JSON values that can appear in the exported objects: `null` (from a
Python `None` field), strings, and the additional-metadata object. -/
inductive JValue where
  | null : JValue
  | str : String → JValue
  | obj : List (String × String) → JValue
deriving DecidableEq, Repr

/-- A golden produced by the collaborator (deepeval `Golden`).  `input` is a
required string; the other attributes may be absent or `None`, modeled with
`Option`. -/
structure Golden where
  input : String
  expected_output : Option String
  context : Option String
  additional_metadata : Option (List (String × String))
  source_file : Option String
deriving DecidableEq, Repr

/-- Python truthiness of an optional string attribute:
`hasattr(g, f) and g.f` is false when the attribute is absent (`none`) or an
empty string. -/
def truthyStr : Option String → Bool
  | none => false
  | some s => !(s.isEmpty)

/-- Python truthiness of the optional metadata dict: absent or empty is
false. -/
def truthyMeta : Option (List (String × String)) → Bool
  | none => false
  | some m => !(m.isEmpty)

/-- A Python value that may be `None`, as a JSON value. -/
def jOfOpt : Option String → JValue
  | none => JValue.null
  | some s => JValue.str s

/-- Python `str()` of an optional string (used in markdown interpolation,
where `None` prints as "None"). -/
def pyStr : Option String → String
  | none => "None"
  | some s => s

/-- Styling mode, app.py lines 90-92: the dict appended for one golden is
exactly the single pair input/golden.input. -/
def stylingGoldenJson (g : Golden) : List (String × JValue) :=
  [("input", JValue.str g.input)]

/-- Styling mode, app.py lines 88-92: json_data is built by a loop that
appends one single-key dict per golden, in order. -/
def stylingJsonData (goldens : List Golden) : List (List (String × JValue)) :=
  goldens.foldl (fun acc g => acc ++ [stylingGoldenJson g]) []

/-- Document mode, app.py lines 163-174: the dict for one golden always
holds input and expected_output, then conditionally appends context,
additional_metadata and source_file when the attribute is present and
truthy.  Key order is Python dict insertion order. -/
def docGoldenJson (g : Golden) : List (String × JValue) :=
  let data := [("input", JValue.str g.input),
               ("expected_output", jOfOpt g.expected_output)]
  let data := if truthyStr g.context then
      data ++ [("context", jOfOpt g.context)] else data
  let data := if truthyMeta g.additional_metadata then
      data ++ [("additional_metadata", JValue.obj (g.additional_metadata.getD []))] else data
  let data := if truthyStr g.source_file then
      data ++ [("source_file", jOfOpt g.source_file)] else data
  data

/-- Document mode, app.py lines 161-176: json_data is built by a loop that
appends one dict per golden, in order. -/
def docJsonData (goldens : List Golden) : List (List (String × JValue)) :=
  goldens.foldl (fun acc g => acc ++ [docGoldenJson g]) []

/-- Whether the field of `g` named by key `k` is present and non-empty
(Python-truthy); this is the spec notion used by the export claims. -/
def fieldTruthy (g : Golden) : String → Bool
  | "input" => !(g.input.isEmpty)
  | "expected_output" => truthyStr g.expected_output
  | "context" => truthyStr g.context
  | "additional_metadata" => truthyMeta g.additional_metadata
  | "source_file" => truthyStr g.source_file
  | _ => false

/-- One Streamlit display/output call of the app.  The download button
carries the json_data value it offers rather than its `json.dumps`
serialization. -/
inductive UIAction where
  | subheader (text : String)
  | expander (title : String)
  | markdown (text : String)
  | jsonView (value : List (String × String))
  | warning (text : String)
  | errorMsg (text : String)
  | infoMsg (text : String)
  | downloadButton (fileName : String) (data : List (List (String × JValue)))
deriving DecidableEq, Repr

def isDownload : UIAction → Bool
  | UIAction.downloadButton _ _ => true
  | _ => false

def isErrorAct : UIAction → Bool
  | UIAction.errorMsg _ => true
  | _ => false

def isWarningAct : UIAction → Bool
  | UIAction.warning _ => true
  | _ => false

/-- How one generation action terminates: a normal return with the display
calls it made, or an uncaught exception propagating out of the action. -/
inductive Outcome where
  | finished (actions : List UIAction)
  | crashed (msg : String)
deriving DecidableEq, Repr

def outcomeActions : Outcome → List UIAction
  | Outcome.finished acts => acts
  | Outcome.crashed _ => []

/-- Styling mode, app.py lines 82-84: the expander and fenced code block
rendered for golden number i. -/
def stylingDisplayGolden (i : Nat) (g : Golden) : List UIAction :=
  [UIAction.expander ("Example " ++ toString (i + 1)),
   UIAction.markdown ("```\n" ++ g.input ++ "\n```")]

/-- Styling mode, app.py lines 81-103: the display calls of the success
branch — subheader, per-golden expanders, then the download button with
json_data (offered unconditionally in this mode). -/
def stylingResultActions (goldens : List Golden) : List UIAction :=
  UIAction.subheader "Generated Examples:" ::
  ((goldens.mapIdx stylingDisplayGolden).flatten ++
   [UIAction.downloadButton "synthetic_data.json" (stylingJsonData goldens)])

/-- Styling mode, app.py lines 58-106: the whole button handler.  Everything
inside the `try` that can raise (collaborator construction and generation)
is summarized by the `Except` input; the `except Exception` clause turns an
exception into the st.error call. -/
def stylingRun (gen : Except String (List Golden)) : Outcome :=
  match gen with
  | Except.ok goldens => Outcome.finished (stylingResultActions goldens)
  | Except.error e =>
      Outcome.finished [UIAction.errorMsg ("Error generating synthetic data: " ++ e)]

/-- Document mode, app.py lines 143-157: the expander rendered for golden
number i, with conditional context / metadata sections. -/
def docDisplayGolden (i : Nat) (g : Golden) : List UIAction :=
  [UIAction.expander ("Example " ++ toString (i + 1)),
   UIAction.markdown "**Input:**",
   UIAction.markdown ("```\n" ++ g.input ++ "\n```"),
   UIAction.markdown "**Expected Output:**",
   UIAction.markdown ("```\n" ++ pyStr g.expected_output ++ "\n```")] ++
  (if truthyStr g.context then
    [UIAction.markdown "**Context:**",
     UIAction.markdown ("```\n" ++ pyStr g.context ++ "\n```")]
   else []) ++
  (if truthyMeta g.additional_metadata then
    [UIAction.markdown "**Additional Metadata:**",
     UIAction.jsonView (g.additional_metadata.getD [])]
   else [])

/-- Document mode, app.py lines 138-187: the result branch after the
collaborator returned `goldens` — the empty list gets st.warning and
nothing else; a non-empty list gets the expanders and the download button
with json_data. -/
def docResultActions (goldens : List Golden) : List UIAction :=
  UIAction.subheader "Generated Examples:" ::
  (if goldens.isEmpty then
    [UIAction.warning ("No synthetic data was generated. This might happen if the documents couldn\x27t be processed properly.")]
  else
    (goldens.mapIdx docDisplayGolden).flatten ++
    [UIAction.downloadButton "synthetic_data_from_docs.json" (docJsonData goldens)])

/-- A file path `os.path.join(dir, name)`, kept structured: the directory it
lives in and the file name inside it. -/
structure FilePath2 where
  dir : String
  name : String
deriving DecidableEq, Repr

/-- An uploaded file: its original name and its byte content
(`uploaded_file.getvalue()`), bytes as naturals. -/
structure UploadedFile where
  name : String
  content : List Nat
deriving DecidableEq, Repr

/-- The file system visible to the model: an association list from paths to
byte contents. -/
abbrev FS : Type := List (FilePath2 × List Nat)

/-- Writing with `open(path, "wb")`: replace the content at an existing
path, or create the file. -/
def setFile (fs : FS) (p : FilePath2) (c : List Nat) : FS :=
  if fs.any (fun kv => decide (kv.1 = p)) then
    fs.map (fun kv => if kv.1 = p then (p, c) else kv)
  else fs ++ [(p, c)]

/-- Reading a file: the first entry at that path, if any. -/
def getFile (fs : FS) (p : FilePath2) : Option (List Nat) :=
  (fs.find? (fun kv => decide (kv.1 = p))).map (fun kv => kv.2)

/-- Deleting the temporary directory on exit of
`tempfile.TemporaryDirectory()`: every file inside `tempDir` disappears. -/
def removeTempDir (tempDir : String) (fs : FS) : FS :=
  fs.filter (fun kv => decide (kv.1.dir ≠ tempDir))

/-- Document mode, app.py lines 118-124: the upload loop.  Each file is
written byte-for-byte to `os.path.join(temp_dir, uploaded_file.name)` and
its path appended to file_paths.  (The st.info display call in the loop is
pure display and not part of the state.) -/
def writeFilesLoop (tempDir : String) (files : List UploadedFile)
    (fs : FS) (filePaths : List FilePath2) : FS × List FilePath2 :=
  match files with
  | [] => (fs, filePaths)
  | f :: rest =>
      writeFilesLoop tempDir rest
        (setFile fs (FilePath2.mk tempDir f.name) f.content)
        (filePaths ++ [FilePath2.mk tempDir f.name])

/-- Document mode, app.py lines 116-187: the `with
tempfile.TemporaryDirectory()` block.  All files are written first, then
the collaborator is called once on the complete file_paths list; whatever
the collaborator does, the temporary directory is removed when the block is
left (also when an exception is propagating). -/
def docWithBlock (tempDir : String) (files : List UploadedFile)
    (gen : List FilePath2 → Except String (List Golden)) (fs0 : FS) :
    Except String (List UIAction) × FS :=
  let written := writeFilesLoop tempDir files fs0 []
  let bodyOut : Except String (List UIAction) :=
    match gen written.2 with
    | Except.ok goldens => Except.ok (docResultActions goldens)
    | Except.error e => Except.error e
  (bodyOut, removeTempDir tempDir written.1)

/-- Document mode, app.py lines 114-191: the whole button handler.  The
`except Exception` clause converts any exception propagating out of the
with-block into the two st.error calls. -/
def docModeRun (tempDir : String) (files : List UploadedFile)
    (gen : List FilePath2 → Except String (List Golden)) (fs0 : FS) :
    Outcome × FS :=
  match docWithBlock tempDir files gen fs0 with
  | (Except.ok acts, fs) => (Outcome.finished acts, fs)
  | (Except.error e, fs) =>
      (Outcome.finished
        [UIAction.errorMsg ("Error generating synthetic data: " ++ e),
         UIAction.errorMsg "Make sure you have the required API key set if needed."], fs)

/-- Document mode, app.py line 113: the generation branch runs only when
`uploaded_files` is truthy (non-empty) and the button was pressed. -/
def docTriggered (uploadedFiles : List UploadedFile) (buttonPressed : Bool) : Bool :=
  !uploadedFiles.isEmpty && buttonPressed

/-- Document mode, app.py lines 113-191: the guarded action — `none` means
the generation body never ran. -/
def docMode (uploadedFiles : List UploadedFile) (buttonPressed : Bool)
    (tempDir : String) (gen : List FilePath2 → Except String (List Golden))
    (fs0 : FS) : Option (Outcome × FS) :=
  if docTriggered uploadedFiles buttonPressed then
    some (docModeRun tempDir uploadedFiles gen fs0)
  else none

/-- Styling mode, app.py line 56: `st.slider(label, 1, 50, 5)`.  The UI
library returns the default when the user made no choice, and otherwise a
value it has clamped into the configured bounds. -/
def slider (lo hi default : Nat) (choice : Option Nat) : Nat :=
  match choice with
  | none => default
  | some v => max lo (min hi v)

/-- Styling mode, app.py lines 56 and 75: the num_goldens value the handler
passes to `generate_goldens_from_scratch`. -/
def numGoldensValue (choice : Option Nat) : Nat :=
  slider 1 50 5 choice

/-- A golden whose optional attributes are all absent: the collaborator in
document mode can produce a golden with no expected output. -/
def goldenNoEO : Golden :=
  { input := "q", expected_output := none, context := none,
    additional_metadata := none, source_file := none }

/-- Pushing one element per item onto an accumulator with `foldl` is
`map`. -/
theorem foldl_push_eq_map {α β : Type} (f : α → β) (l : List α) (acc : List β) :
    l.foldl (fun a x => a ++ [f x]) acc = acc ++ l.map f := by
  induction l generalizing acc with
  | nil => simp
  | cons x xs ih => simp [List.foldl, ih]

theorem stylingJsonData_eq_map (goldens : List Golden) :
    stylingJsonData goldens = goldens.map stylingGoldenJson :=
  by simpa using foldl_push_eq_map stylingGoldenJson goldens []

theorem docJsonData_eq_map (goldens : List Golden) :
    docJsonData goldens = goldens.map docGoldenJson :=
  by simpa using foldl_push_eq_map docGoldenJson goldens []

/-- The in-place replacement form of `setFile`: finding the written path in
the replaced list gives the new entry, provided the path occurs. -/
theorem find?_replace_same (fs : FS) (p : FilePath2) (c : List Nat)
    (h : fs.any (fun kv => decide (kv.1 = p)) = true) :
    (fs.map (fun kv => if kv.1 = p then (p, c) else kv)).find?
      (fun kv => decide (kv.1 = p)) = some (p, c) := by
  induction fs with
  | nil => simp at h
  | cons kv rest ih =>
    rw [List.map_cons]
    by_cases hkv : kv.1 = p
    · rw [if_pos hkv, List.find?_cons_of_pos _ (by simp)]
    · rw [if_neg hkv, List.find?_cons_of_neg _ (by simpa using hkv)]
      apply ih
      simpa [List.any_cons, hkv] using h

/-- Replacement at `p` is invisible when finding a different path `q`. -/
theorem find?_replace_ne (fs : FS) (p q : FilePath2) (c : List Nat)
    (hpq : p ≠ q) :
    (fs.map (fun kv => if kv.1 = p then (p, c) else kv)).find?
      (fun kv => decide (kv.1 = q)) = fs.find? (fun kv => decide (kv.1 = q)) := by
  induction fs with
  | nil => simp
  | cons kv rest ih =>
    rw [List.map_cons]
    by_cases hkv : kv.1 = p
    · have hq : ¬ kv.1 = q := by rw [hkv]; exact hpq
      rw [if_pos hkv, List.find?_cons_of_neg _ (by simpa using hpq),
          List.find?_cons_of_neg _ (by simpa using hq), ih]
    · by_cases hq : kv.1 = q
      · rw [if_neg hkv, List.find?_cons_of_pos _ (by simpa using hq),
            List.find?_cons_of_pos _ (by simpa using hq)]
      · rw [if_neg hkv, List.find?_cons_of_neg _ (by simpa using hq),
            List.find?_cons_of_neg _ (by simpa using hq), ih]

/-- If no entry of `fs` sits at path `p`, `find?` for `p` fails on `fs`. -/
theorem find?_eq_none_of_not_any (fs : FS) (p : FilePath2)
    (h : ¬ fs.any (fun kv => decide (kv.1 = p)) = true) :
    fs.find? (fun kv => decide (kv.1 = p)) = none := by
  induction fs with
  | nil => rfl
  | cons kv rest ih =>
    have hkv : ¬ kv.1 = p := fun hk => h (by simp [List.any_cons, hk])
    rw [List.find?_cons_of_neg _ (by simpa using hkv)]
    exact ih (fun hr => h (by simp [List.any_cons, hr]))

/-- Writing a path and reading it back gives the written content. -/
theorem getFile_setFile_same (fs : FS) (p : FilePath2) (c : List Nat) :
    getFile (setFile fs p c) p = some c := by
  unfold setFile getFile
  by_cases h : fs.any (fun kv => decide (kv.1 = p)) = true
  · rw [if_pos h, find?_replace_same fs p c h]
    rfl
  · rw [if_neg h, List.find?_append, find?_eq_none_of_not_any fs p h]
    simp [List.find?]

/-- Writing one path leaves every other path unchanged. -/
theorem getFile_setFile_ne (fs : FS) (p q : FilePath2) (c : List Nat)
    (hpq : p ≠ q) : getFile (setFile fs p c) q = getFile fs q := by
  unfold setFile getFile
  by_cases h : fs.any (fun kv => decide (kv.1 = p)) = true
  · rw [if_pos h, find?_replace_ne fs p q c hpq]
  · rw [if_neg h, List.find?_append]
    have : ([(p, c)].find? (fun kv => decide (kv.1 = q))) = none := by
      simp [List.find?, hpq]
    rw [this]
    cases fs.find? (fun kv => decide (kv.1 = q)) <;> rfl

/-- Writing inside the temporary directory is invisible after the directory
is removed. -/
theorem removeTempDir_setFile (tempDir : String) (fs : FS) (p : FilePath2)
    (c : List Nat) (hdir : p.dir = tempDir) :
    removeTempDir tempDir (setFile fs p c) = removeTempDir tempDir fs := by
  unfold setFile removeTempDir
  by_cases h : fs.any (fun kv => decide (kv.1 = p)) = true
  · rw [if_pos h]
    clear h
    induction fs with
    | nil => rfl
    | cons kv rest ih =>
      rw [List.map_cons]
      by_cases hkv : kv.1 = p
      · have hkvdir : kv.1.dir = tempDir := by rw [hkv, hdir]
        rw [if_pos hkv, List.filter_cons, List.filter_cons]
        simp only [hdir, hkvdir, ne_eq, not_true_eq_false, decide_False,
          Bool.false_eq_true, if_false]
        exact ih
      · rw [if_neg hkv, List.filter_cons, List.filter_cons]
        by_cases hclean : kv.1.dir = tempDir
        · simp only [hclean, ne_eq, not_true_eq_false, decide_False,
            Bool.false_eq_true, if_false]
          exact ih
        · simp only [ne_eq, hclean, not_false_eq_true, decide_True, if_true]
          rw [ih]
  · rw [if_neg h, List.filter_append]
    simp [hdir]

/-- Removing the temporary directory after the upload loop gives the same
file system as removing it before the loop ran: the loop only writes inside
`tempDir`. -/
theorem removeTempDir_writeFilesLoop (tempDir : String)
    (files : List UploadedFile) (fs : FS) (filePaths : List FilePath2) :
    removeTempDir tempDir (writeFilesLoop tempDir files fs filePaths).1 =
      removeTempDir tempDir fs := by
  induction files generalizing fs filePaths with
  | nil => rfl
  | cons f rest ih =>
    rw [writeFilesLoop, ih, removeTempDir_setFile tempDir fs
      (FilePath2.mk tempDir f.name) f.content rfl]

/-- Removing a directory that holds none of the files is a no-op. -/
theorem removeTempDir_of_clean (tempDir : String) (fs : FS)
    (h : fs.all (fun kv => decide (kv.1.dir ≠ tempDir)) = true) :
    removeTempDir tempDir fs = fs := by
  unfold removeTempDir
  rw [List.filter_eq_self]
  intro kv hkv
  exact (List.all_eq_true.mp h) kv hkv

/-- The upload loop appends exactly one path per uploaded file, joining the
temporary directory with the file name, in upload order. -/
theorem writeFilesLoop_paths (tempDir : String) (files : List UploadedFile)
    (fs : FS) (filePaths : List FilePath2) :
    (writeFilesLoop tempDir files fs filePaths).2 =
      filePaths ++ files.map (fun f => FilePath2.mk tempDir f.name) := by
  induction files generalizing fs filePaths with
  | nil => simp [writeFilesLoop]
  | cons f rest ih =>
    rw [writeFilesLoop, ih]
    simp

/-- Files at paths the upload loop never writes keep their content. -/
theorem getFile_writeFilesLoop_untouched (tempDir : String)
    (files : List UploadedFile) (fs : FS) (filePaths : List FilePath2)
    (q : FilePath2) (h : ∀ f ∈ files, FilePath2.mk tempDir f.name ≠ q) :
    getFile (writeFilesLoop tempDir files fs filePaths).1 q = getFile fs q := by
  induction files generalizing fs filePaths with
  | nil => rfl
  | cons f rest ih =>
    rw [writeFilesLoop, ih _ _ (fun g hg => h g (List.mem_cons_of_mem f hg)),
        getFile_setFile_ne fs _ q f.content (h f (List.mem_cons_self f rest))]

/-- The upload loop runs left to right: splitting the file list around one
file, the state after the whole loop is the loop over the tail run on the
state after the head. -/
theorem writeFilesLoop_append (tempDir : String)
    (l1 l2 : List UploadedFile) (fs : FS) (filePaths : List FilePath2) :
    writeFilesLoop tempDir (l1 ++ l2) fs filePaths =
      writeFilesLoop tempDir l2 (writeFilesLoop tempDir l1 fs filePaths).1
        (writeFilesLoop tempDir l1 fs filePaths).2 := by
  induction l1 generalizing fs filePaths with
  | nil => rfl
  | cons f rest ih =>
    rw [List.cons_append, writeFilesLoop, writeFilesLoop, ih]

theorem writeFilesLoop_paths_nil (tempDir : String) (files : List UploadedFile)
    (fs : FS) :
    (writeFilesLoop tempDir files fs []).2 =
      files.map (fun f => FilePath2.mk tempDir f.name) := by
  simpa using writeFilesLoop_paths tempDir files fs []

/-- After the upload loop, a file whose name no later upload shares sits at
its joined path with exactly its uploaded bytes. -/
theorem getFile_writeFilesLoop_nodup (tempDir : String)
    (files : List UploadedFile) (fs : FS) (filePaths : List FilePath2)
    (f : UploadedFile) (hf : f ∈ files)
    (hnd : (files.map (fun u => u.name)).Nodup) :
    getFile (writeFilesLoop tempDir files fs filePaths).1
      (FilePath2.mk tempDir f.name) = some f.content := by
  obtain ⟨l1, l2, rfl⟩ := List.append_of_mem hf
  have hnames : f.name ∉ l2.map (fun u => u.name) := by
    rw [List.map_append, List.map_cons] at hnd
    exact (List.nodup_cons.mp (List.Nodup.of_append_right hnd)).1
  have hne : ∀ g ∈ l2, FilePath2.mk tempDir g.name ≠ FilePath2.mk tempDir f.name := by
    intro g hg hEq
    apply hnames
    have hgname : g.name = f.name := congrArg FilePath2.name hEq
    rw [← hgname]
    exact List.mem_map_of_mem _ hg
  rw [writeFilesLoop_append, writeFilesLoop,
      getFile_writeFilesLoop_untouched tempDir l2 _ _ _ hne,
      getFile_setFile_same]

/-- The document handler when the collaborator returns goldens: the result
branch runs and the temporary directory is removed. -/
theorem docModeRun_ok (tempDir : String) (files : List UploadedFile)
    (gen : List FilePath2 → Except String (List Golden)) (fs0 : FS)
    (goldens : List Golden)
    (h : gen (writeFilesLoop tempDir files fs0 []).2 = Except.ok goldens) :
    docModeRun tempDir files gen fs0 =
      (Outcome.finished (docResultActions goldens),
       removeTempDir tempDir (writeFilesLoop tempDir files fs0 []).1) := by
  simp only [docModeRun, docWithBlock, h]

/-- The document handler when the collaborator raises: the two st.error
calls run and the temporary directory is still removed. -/
theorem docModeRun_error (tempDir : String) (files : List UploadedFile)
    (gen : List FilePath2 → Except String (List Golden)) (fs0 : FS)
    (e : String)
    (h : gen (writeFilesLoop tempDir files fs0 []).2 = Except.error e) :
    docModeRun tempDir files gen fs0 =
      (Outcome.finished
        [UIAction.errorMsg ("Error generating synthetic data: " ++ e),
         UIAction.errorMsg "Make sure you have the required API key set if needed."],
       removeTempDir tempDir (writeFilesLoop tempDir files fs0 []).1) := by
  simp only [docModeRun, docWithBlock, h]

/-- C1 (counterexample): the claim that a key appears in the document-mode
export object only if the corresponding field is present and non-empty is
false: a golden with an absent expected_output still gets the key
expected_output (holding null) in its exported object. -/
theorem c1_export_keys_counterexample :
    ¬ (∀ g : Golden, ∀ kv ∈ docGoldenJson g, fieldTruthy g kv.1 = true) := by
  intro h
  have hm : ("expected_output", JValue.null) ∈ docGoldenJson goldenNoEO := by
    decide
  have hcontra := h goldenNoEO ("expected_output", JValue.null) hm
  simp [fieldTruthy, goldenNoEO, truthyStr] at hcontra

/-- C1 (amended): the document-mode export object always contains the key
input with the input string and the key expected_output with the field
value, an absent field being exported as null (`jOfOpt none`); every key
of the object is one of the five known keys, the conditional ones only
with a present and non-empty field; and each conditional key context,
additional_metadata, source_file appears exactly when the corresponding
field is present and non-empty. -/
theorem c1_export_keys_amended (g : Golden) :
    (("input", JValue.str g.input) ∈ docGoldenJson g) ∧
    (("expected_output", jOfOpt g.expected_output) ∈ docGoldenJson g) ∧
    jOfOpt none = JValue.null ∧
    ((docGoldenJson g).all
      (fun kv => kv.1 == "input" || kv.1 == "expected_output" ||
                 fieldTruthy g kv.1) = true) ∧
    ((docGoldenJson g).any (fun kv => kv.1 == "context") =
      truthyStr g.context) ∧
    ((docGoldenJson g).any (fun kv => kv.1 == "additional_metadata") =
      truthyMeta g.additional_metadata) ∧
    ((docGoldenJson g).any (fun kv => kv.1 == "source_file") =
      truthyStr g.source_file) := by
  unfold docGoldenJson
  by_cases h1 : truthyStr g.context = true <;>
  by_cases h2 : truthyMeta g.additional_metadata = true <;>
  by_cases h3 : truthyStr g.source_file = true <;>
  simp [h1, h2, h3, fieldTruthy, jOfOpt]

/-- C2: in the styling-mode export, each element of json_data is an object
with exactly the single key input, holding the input field of the
corresponding golden, in order. -/
theorem c2_styling_export_single_key (goldens : List Golden) :
    stylingJsonData goldens =
      goldens.map (fun g => [("input", JValue.str g.input)]) :=
  stylingJsonData_eq_map goldens

/-- C3: when the collaborator returns no goldens in document mode, the
result branch emits a warning, offers no download button, and emits no
error message (the empty condition is distinct from a failure). -/
theorem c3_empty_result_warning :
    (docResultActions []).any isWarningAct = true ∧
    (docResultActions []).all (fun a => !(isDownload a)) = true ∧
    (docResultActions []).all (fun a => !(isErrorAct a)) = true := by
  decide

/-- C4: both generation handlers convert every collaborator exception into
a finished run whose display list holds an st.error call; neither handler
ever ends in a propagating exception (`Outcome.crashed`). -/
theorem c4_exceptions_converted :
    (∀ gen : Except String (List Golden),
       ∃ acts, stylingRun gen = Outcome.finished acts) ∧
    (∀ (tempDir : String) (files : List UploadedFile)
       (gen : List FilePath2 → Except String (List Golden)) (fs0 : FS),
       ∃ acts fsF, docModeRun tempDir files gen fs0 = (Outcome.finished acts, fsF)) ∧
    (∀ e : String,
       (outcomeActions (stylingRun (Except.error e))).any isErrorAct = true) ∧
    (∀ (e : String) (tempDir : String) (files : List UploadedFile) (fs0 : FS),
       (outcomeActions
         (docModeRun tempDir files (fun _ => Except.error e) fs0).1).any
           isErrorAct = true) := by
  refine ⟨?_, ?_, ?_, ?_⟩
  · intro gen
    cases gen <;> exact ⟨_, rfl⟩
  · intro tempDir files gen fs0
    cases hg : gen (writeFilesLoop tempDir files fs0 []).2 with
    | ok goldens =>
        exact ⟨_, _, docModeRun_ok tempDir files gen fs0 goldens hg⟩
    | error e =>
        exact ⟨_, _, docModeRun_error tempDir files gen fs0 e hg⟩
  · intro e
    simp [stylingRun, outcomeActions, isErrorAct]
  · intro e tempDir files fs0
    rw [docModeRun_error tempDir files (fun _ => Except.error e) fs0 e rfl]
    simp [outcomeActions, isErrorAct]

/-- C5: the document handler removes every file of the temporary directory
on both the success and the exception path; a file system that held nothing
under the fresh temporary directory is returned exactly as it was. -/
theorem c5_temp_files_removed (tempDir : String) (files : List UploadedFile)
    (gen : List FilePath2 → Except String (List Golden)) (fs0 : FS)
    (h : fs0.all (fun kv => decide (kv.1.dir ≠ tempDir)) = true) :
    (docModeRun tempDir files gen fs0).2 = fs0 ∧
    ((docModeRun tempDir files gen fs0).2).all
      (fun kv => decide (kv.1.dir ≠ tempDir)) = true := by
  have hsnd : (docModeRun tempDir files gen fs0).2 =
      removeTempDir tempDir (writeFilesLoop tempDir files fs0 []).1 := by
    cases hg : gen (writeFilesLoop tempDir files fs0 []).2 with
    | ok goldens => rw [docModeRun_ok tempDir files gen fs0 goldens hg]
    | error e => rw [docModeRun_error tempDir files gen fs0 e hg]
  have hclean : removeTempDir tempDir (writeFilesLoop tempDir files fs0 []).1 = fs0 := by
    rw [removeTempDir_writeFilesLoop, removeTempDir_of_clean tempDir fs0 h]
  refine ⟨by rw [hsnd, hclean], ?_⟩
  rw [hsnd, hclean]
  exact h

/-- C5 witness: a concrete run — one uploaded file, a file system holding
one unrelated file — returns the file system unchanged. -/
theorem c5_temp_files_removed_witness :
    ([(FilePath2.mk "/home" "x", [0])].all
      (fun kv => decide (kv.1.dir ≠ "/tmp/t")) = true) ∧
    ((docModeRun "/tmp/t" [UploadedFile.mk "a.txt" [1, 2]]
        (fun _ => Except.ok []) [(FilePath2.mk "/home" "x", [0])]).2 =
      [(FilePath2.mk "/home" "x", [0])] ∧
     ((docModeRun "/tmp/t" [UploadedFile.mk "a.txt" [1, 2]]
        (fun _ => Except.ok []) [(FilePath2.mk "/home" "x", [0])]).2).all
       (fun kv => decide (kv.1.dir ≠ "/tmp/t")) = true) :=
  ⟨by decide,
   c5_temp_files_removed "/tmp/t" [UploadedFile.mk "a.txt" [1, 2]]
     (fun _ => Except.ok []) [(FilePath2.mk "/home" "x", [0])] (by decide)⟩

/-- C6: in both modes json_data has exactly one element per golden and the
element at every index is the export of the golden at the same index — the
export neither reorders, drops, nor duplicates. -/
theorem c6_export_preserves_order (goldens : List Golden) :
    (stylingJsonData goldens).length = goldens.length ∧
    (docJsonData goldens).length = goldens.length ∧
    (∀ i : Nat, (stylingJsonData goldens)[i]? =
      (goldens[i]?).map stylingGoldenJson) ∧
    (∀ i : Nat, (docJsonData goldens)[i]? = (goldens[i]?).map docGoldenJson) := by
  refine ⟨?_, ?_, ?_, ?_⟩ <;>
    simp [stylingJsonData_eq_map, docJsonData_eq_map]

/-- C7: whatever the user does with the slider, the num_goldens value the
styling handler passes to the collaborator is between 1 and 50. -/
theorem c7_num_goldens_bounds (choice : Option Nat) :
    1 ≤ numGoldensValue choice ∧ numGoldensValue choice ≤ 50 := by
  cases choice with
  | none => exact ⟨by decide, by decide⟩
  | some v =>
      refine ⟨?_, ?_⟩
      · show 1 ≤ max 1 (min 50 v)
        exact le_max_left 1 (min 50 v)
      · show max 1 (min 50 v) ≤ 50
        exact max_le (by decide) (min_le_left 50 v)

/-- C8: the upload loop passes the collaborator the joined path of every
uploaded file in upload order; the bytes of each file sit unmodified at its path
when the collaborator is called (when no later upload reuses its name); and
the handler consults the collaborator only through its value on that
complete path list, i.e. only after all files have been written. -/
theorem c8_files_written_before_generation (tempDir : String)
    (files : List UploadedFile) (fs0 : FS) (f : UploadedFile)
    (gen gen2 : List FilePath2 → Except String (List Golden))
    (hnd : (files.map (fun u => u.name)).Nodup) (hf : f ∈ files)
    (hgen : gen (files.map (fun u => FilePath2.mk tempDir u.name)) =
            gen2 (files.map (fun u => FilePath2.mk tempDir u.name))) :
    (writeFilesLoop tempDir files fs0 []).2 =
      files.map (fun u => FilePath2.mk tempDir u.name) ∧
    getFile (writeFilesLoop tempDir files fs0 []).1
      (FilePath2.mk tempDir f.name) = some f.content ∧
    docModeRun tempDir files gen fs0 = docModeRun tempDir files gen2 fs0 := by
  refine ⟨writeFilesLoop_paths_nil tempDir files fs0,
          getFile_writeFilesLoop_nodup tempDir files fs0 [] f hf hnd, ?_⟩
  have hgen2 : gen (writeFilesLoop tempDir files fs0 []).2 =
      gen2 (writeFilesLoop tempDir files fs0 []).2 := by
    rw [writeFilesLoop_paths_nil]
    exact hgen
  cases hg : gen (writeFilesLoop tempDir files fs0 []).2 with
  | ok goldens =>
      rw [docModeRun_ok tempDir files gen fs0 goldens hg,
          docModeRun_ok tempDir files gen2 fs0 goldens (by rw [← hgen2]; exact hg)]
  | error e =>
      rw [docModeRun_error tempDir files gen fs0 e hg,
          docModeRun_error tempDir files gen2 fs0 e (by rw [← hgen2]; exact hg)]

/-- C8 witness: two concretely named uploads are written to their joined
paths with their exact bytes before the collaborator sees the path list. -/
theorem c8_files_written_before_generation_witness :
    (([UploadedFile.mk "a.txt" [1], UploadedFile.mk "b.txt" [2]].map
       (fun u => u.name)).Nodup ∧
     UploadedFile.mk "a.txt" [1] ∈
       [UploadedFile.mk "a.txt" [1], UploadedFile.mk "b.txt" [2]]) ∧
    ((writeFilesLoop "/tmp/t"
        [UploadedFile.mk "a.txt" [1], UploadedFile.mk "b.txt" [2]] [] []).2 =
      [UploadedFile.mk "a.txt" [1], UploadedFile.mk "b.txt" [2]].map
        (fun u => FilePath2.mk "/tmp/t" u.name) ∧
     getFile (writeFilesLoop "/tmp/t"
        [UploadedFile.mk "a.txt" [1], UploadedFile.mk "b.txt" [2]] [] []).1
       (FilePath2.mk "/tmp/t" "a.txt") = some [1] ∧
     docModeRun "/tmp/t"
       [UploadedFile.mk "a.txt" [1], UploadedFile.mk "b.txt" [2]]
       (fun _ => Except.ok []) [] =
     docModeRun "/tmp/t"
       [UploadedFile.mk "a.txt" [1], UploadedFile.mk "b.txt" [2]]
       (fun _ => Except.ok []) []) :=
  ⟨⟨by decide, by decide⟩,
   c8_files_written_before_generation "/tmp/t"
     [UploadedFile.mk "a.txt" [1], UploadedFile.mk "b.txt" [2]] []
     (UploadedFile.mk "a.txt" [1]) (fun _ => Except.ok [])
     (fun _ => Except.ok []) (by decide) (by decide) rfl⟩

/-- C9: with no uploaded files the document-mode generation body never
runs — the trigger condition is already false, so the collaborator is never
called on an empty upload set. -/
theorem c9_no_empty_upload_generation :
    (∀ (buttonPressed : Bool) (tempDir : String)
       (gen : List FilePath2 → Except String (List Golden)) (fs0 : FS),
       docMode [] buttonPressed tempDir gen fs0 = none) ∧
    (∀ buttonPressed : Bool, docTriggered [] buttonPressed = false) := by
  constructor
  · intro buttonPressed tempDir gen fs0
    simp [docMode, docTriggered]
  · intro buttonPressed
    simp [docTriggered]

/-- C10: two uploads sharing one name are joined to the same temporary
path: that path appears twice in the list handed to the collaborator, and
the bytes of the second upload overwrite those of the first. -/
theorem c10_duplicate_names_overwrite (tempDir nm : String) (b1 b2 : List Nat) :
    (writeFilesLoop tempDir
       [UploadedFile.mk nm b1, UploadedFile.mk nm b2] [] []).2 =
      [FilePath2.mk tempDir nm, FilePath2.mk tempDir nm] ∧
    getFile (writeFilesLoop tempDir
       [UploadedFile.mk nm b1, UploadedFile.mk nm b2] [] []).1
      (FilePath2.mk tempDir nm) = some b2 ∧
    ((writeFilesLoop tempDir
       [UploadedFile.mk nm b1, UploadedFile.mk nm b2] [] []).2).count
      (FilePath2.mk tempDir nm) = 2 := by
  refine ⟨?_, ?_, ?_⟩ <;>
    simp [writeFilesLoop, setFile, getFile, List.find?, List.count_cons]
